import Mathlib

/- Shallow embedding of src/api/chatroom/chatroom.py (NexusAI chatroom service).

The request handlers are translated directly from the Python source. The
backing model classes (Chatrooms, Apps, ChatroomAgentRelation,
ChatroomMessages from core.database.models) are not part of src/; their
behaviour is modelled from the spec (sections 2, 3 and 4) as list-backed
stores: insert appends a row, update rewrites the fields of every matching
row, delete removes matching rows, and insert_agent bulk-upserts membership
rows keyed on (chatroom_id, agent_id). -/

namespace NexusAI

/-- A dynamic request value, as Python values arriving in a request body:
absent/None, a string, or an integer. -/
inductive Value where
  | vNone : Value
  | vStr : String → Value
  | vInt : Int → Value
deriving Repr, DecidableEq

/-- One element of the agent list when it is a mapping: each required key is
present (some) or absent (none). -/
structure AgentDict where
  agent_id : Option Nat
  active : Option Value
deriving Repr, DecidableEq

/-- One element of the incoming agent list: either not a mapping at all, or a
mapping with possibly-missing keys. -/
inductive AgentEntry where
  | notDict : AgentEntry
  | dict : AgentDict → AgentEntry
deriving Repr, DecidableEq

/-- Reading item[agent_id]. After validation the key is always present; the
default is never reached on validated input. -/
def AgentEntry.agentId : AgentEntry → Nat
  | .notDict => 0
  | .dict d => d.agent_id.getD 0

/-- Reading item[active]. After validation the key is always present. -/
def AgentEntry.activeVal : AgentEntry → Value
  | .notDict => .vNone
  | .dict d => d.active.getD .vNone

/-- Per-item validation from create_chatroom / update_chatroom: the item must
be a dict and must contain both required keys agent_id and active. Returns
the first applicable error key, none if the item is valid. -/
def validAgentItem : AgentEntry → Option String
  | .notDict => some "chatroom_agent_item_must_be_a_dictionary"
  | .dict d =>
      if d.agent_id.isNone ∨ d.active.isNone then
        some "chatroom_agent_item_missing_keys"
      else none

/-- The validation loop over the agent list: returns the error of the first
invalid item, none if all items are valid. -/
def validateAgentList : List AgentEntry → Option String
  | [] => none
  | e :: rest =>
      match validAgentItem e with
      | some msg => some msg
      | none => validateAgentList rest

/-- Application row (Apps model). Modelled from the spec: id, team_id,
user_id, name, description, mode, status. -/
structure App where
  id : Nat
  team_id : Nat
  user_id : Nat
  name : String
  description : String
  mode : Nat
  status : Nat
deriving Repr, DecidableEq

/-- Room row (Chatrooms model). Modelled from the spec: id, team_id, user_id,
app_id, max_round, smart_selection, status, active. -/
structure Room where
  id : Nat
  team_id : Nat
  user_id : Nat
  app_id : Nat
  max_round : Nat
  smart_selection : Value
  status : Nat
  active : Nat
deriving Repr, DecidableEq

/-- Membership row (ChatroomAgentRelation model). Modelled from the spec:
chatroom_id, agent_id, active. The active field holds whatever value the
handlers wrote, hence Value. -/
structure AgentRelation where
  chatroom_id : Nat
  agent_id : Nat
  active : Value
deriving Repr, DecidableEq

/-- Message row (ChatroomMessages model). Modelled from the spec: id,
chatroom_id, is_read. -/
structure Message where
  id : Nat
  chatroom_id : Nat
  is_read : Nat
deriving Repr, DecidableEq

/-- The four stores plus the global agent registry (searched by
Chatrooms().search_agent_id) and fresh-id counters for inserts. -/
structure DB where
  apps : List App
  rooms : List Room
  memberships : List AgentRelation
  messages : List Message
  agents : List Nat
  next_app_id : Nat
  next_room_id : Nat
deriving Repr, DecidableEq

/-- The authenticated caller identity injected into every handler. -/
structure Caller where
  uid : Nat
  team_id : Nat
deriving Repr, DecidableEq

/-- Response envelope shapes the handlers produce: response_success with a
data payload, response_success with a detail message and sentinel code (only
the details endpoint), or response_error. -/
inductive Resp where
  | successData : Resp
  | successDetail : String → Nat → Resp
  | error : String → Resp
deriving Repr, DecidableEq

/-- Modelled from the spec: Chatrooms().search_chatrooms_id(chatroom_id, uid)
finds the room that exists, belongs to the caller, and is not soft-deleted
(status 3); delete makes subsequent lookups fail (spec section 8). -/
def search_chatrooms_id (db : DB) (cid uid : Nat) : Option Room :=
  db.rooms.find? (fun r => decide (r.id = cid ∧ r.user_id = uid ∧ r.status ≠ 3))

/-- Modelled from the spec: ChatroomAgentRelation().get_agents_by_chatroom_id
returns every membership row of the room. -/
def get_agents_by_chatroom_id (ms : List AgentRelation) (cid : Nat) : List AgentRelation :=
  ms.filter (fun m => decide (m.chatroom_id = cid))

/-- Modelled from the spec: get_active_agents_by_chatroom_id returns the
membership rows of the room whose active flag is 1. -/
def get_active_agents_by_chatroom_id (ms : List AgentRelation) (cid : Nat) : List AgentRelation :=
  ms.filter (fun m => decide (m.chatroom_id = cid ∧ m.active = Value.vInt 1))

/-- Modelled from the spec: one upsert step of insert_agent. (chatroom_id,
agent_id) is the unique key; if a row with the key exists its fields are
refreshed, otherwise a new row is appended. -/
def upsertAgent (ms : List AgentRelation) (cid : Nat) (e : AgentEntry) : List AgentRelation :=
  if ms.any (fun m => decide (m.chatroom_id = cid ∧ m.agent_id = e.agentId)) then
    ms.map (fun m =>
      if m.chatroom_id = cid ∧ m.agent_id = e.agentId then
        { m with active := e.activeVal }
      else m)
  else ms ++ [⟨cid, e.agentId, e.activeVal⟩]

/-- Modelled from the spec: ChatroomAgentRelation().insert_agent bulk-upserts
every entry of the submitted list, tagged with the room id, in list order. -/
def insert_agent (ms : List AgentRelation) (cid : Nat) (es : List AgentEntry) : List AgentRelation :=
  es.foldl (fun acc e => upsertAgent acc cid e) ms

/-- Modelled from the spec: ChatroomAgentRelation().delete with conditions
agent_id and chatroom_id removes the matching rows. -/
def deleteAgentRow (ms : List AgentRelation) (cid aid : Nat) : List AgentRelation :=
  ms.filter (fun m => !(decide (m.chatroom_id = cid ∧ m.agent_id = aid)))

/-- The deletion loop of update_chatroom: one delete call per agent id. -/
def deleteAgents (ms : List AgentRelation) (cid : Nat) (L : List Nat) : List AgentRelation :=
  L.foldl (fun acc a => deleteAgentRow acc cid a) ms

/-- existing_agent_ids of update_chatroom (line 326). -/
def existingAgentIds (ms : List AgentRelation) (cid : Nat) : List Nat :=
  (get_agents_by_chatroom_id ms cid).map AgentRelation.agent_id

/-- new_agent_ids of update_chatroom (line 328). -/
def newAgentIds (es : List AgentEntry) : List Nat :=
  es.map AgentEntry.agentId

/-- agents_to_delete of update_chatroom (line 329): existing minus new. -/
def agentsToDelete (ms : List AgentRelation) (cid : Nat) (es : List AgentEntry) : List Nat :=
  (existingAgentIds ms cid).filter (fun a => decide (a ∉ newAgentIds es))

/-- agents_to_add of update_chatroom (line 330). -/
def agentsToAdd (ms : List AgentRelation) (cid : Nat) (es : List AgentEntry) : List AgentEntry :=
  es.filter (fun e => decide (e.agentId ∉ existingAgentIds ms cid))

/-- agents_to_update of update_chatroom (line 331). -/
def agentsToUpdate (ms : List AgentRelation) (cid : Nat) (es : List AgentEntry) : List AgentEntry :=
  es.filter (fun e => decide (e.agentId ∈ existingAgentIds ms cid))

/-- The membership reconciliation block of update_chatroom (lines 324-357):
delete stale rows, bulk-insert new rows, bulk-upsert retained rows, each
phase guarded by a non-emptiness test as in the source. -/
def reconcileMemberships (ms : List AgentRelation) (cid : Nat) (es : List AgentEntry) : List AgentRelation :=
  let ms1 := if (agentsToDelete ms cid es).isEmpty then ms
             else deleteAgents ms cid (agentsToDelete ms cid es)
  let ms2 := if (agentsToAdd ms cid es).isEmpty then ms1
             else insert_agent ms1 cid (agentsToAdd ms cid es)
  if (agentsToUpdate ms cid es).isEmpty then ms2
  else insert_agent ms2 cid (agentsToUpdate ms cid es)

/-- create_chatroom (POST /, lines 33-101): validate name, max_round and the
agent list, then insert an Application, a Room and the membership rows. -/
def create_chatroom (db : DB) (c : Caller) (name description : String)
    (max_round : Option Nat) (agent : List AgentEntry) : Resp × DB :=
  if name = "" then (.error "chatroom_name_is_required", db)
  else if max_round.isNone then (.error "chatroom_max_round_is_required", db)
  else if agent.isEmpty then (.error "chatroom_agent_is_required", db)
  else
    match validateAgentList agent with
    | some msg => (.error msg, db)
    | none =>
      let app_id := db.next_app_id
      let db1 : DB :=
        { db with
          apps := db.apps ++ [⟨app_id, c.team_id, c.uid, name, description, 5, 1⟩],
          next_app_id := app_id + 1 }
      let chatroom_id := db1.next_room_id
      let db2 : DB :=
        { db1 with
          rooms := db1.rooms ++ [⟨chatroom_id, c.team_id, c.uid, app_id,
                                  max_round.getD 0, Value.vInt 0, 1, 1⟩],
          next_room_id := chatroom_id + 1 }
      let db3 : DB := { db2 with memberships := insert_agent db2.memberships chatroom_id agent }
      (.successData, db3)

/-- delete_chatroom (DELETE, lines 126-168): soft-delete the room and its
application (status 3), hard-delete the membership rows; messages untouched. -/
def delete_chatroom (db : DB) (c : Caller) (cid : Nat) : Resp × DB :=
  if cid = 0 then (.error "chatroom_id_is_required", db)
  else
    match search_chatrooms_id db cid c.uid with
    | none => (.error "chatroom_does_not_exist", db)
    | some fc =>
      let db1 : DB :=
        { db with rooms := db.rooms.map (fun r =>
            if r.id = cid ∧ r.user_id = c.uid then { r with status := 3 } else r) }
      let db2 : DB :=
        { db1 with apps := db1.apps.map (fun a =>
            if a.user_id = c.uid ∧ a.id = fc.app_id then { a with status := 3 } else a) }
      let db3 : DB :=
        { db2 with memberships := db2.memberships.filter (fun m => !(decide (m.chatroom_id = cid))) }
      (.successData, db3)

/-- show_chatroom_details (GET details, lines 171-211): when the room is not
found, returns response_success with the does-not-exist detail and code 1;
otherwise a plain success. No store is written. -/
def show_chatroom_details (db : DB) (c : Caller) (cid : Nat) : Resp × DB :=
  match search_chatrooms_id db cid c.uid with
  | none => (.successDetail "chatroom_does_not_exist" 1, db)
  | some _ => (.successData, db)

/-- toggle_smart_selection_switch (POST smart_selection, lines 214-253):
validates presence and the 0/1 enum, then updates the room row. -/
def toggle_smart_selection_switch (db : DB) (c : Caller) (cid : Nat)
    (smart_selection : Value) : Resp × DB :=
  if cid = 0 then (.error "chatroom_id_is_required", db)
  else
    match search_chatrooms_id db cid c.uid with
    | none => (.error "chatroom_does_not_exist", db)
    | some _ =>
      if smart_selection = .vNone ∨ smart_selection = .vStr "" then
        (.error "chatroom_smart_selection_status_is_required", db)
      else if smart_selection ≠ .vInt 0 ∧ smart_selection ≠ .vInt 1 then
        (.error "chatroom_smart_selection_status_can_only_input", db)
      else
        (.successData,
         { db with rooms := db.rooms.map (fun r =>
             if r.id = cid then { r with smart_selection := smart_selection } else r) })

/-- update_chatroom (POST update_chatroom, lines 256-360): room lookup, the
same validations as create, update of the application and room rows, then
membership reconciliation. -/
def update_chatroom (db : DB) (c : Caller) (cid : Nat) (name description : String)
    (max_round : Option Nat) (new_agents : List AgentEntry) : Resp × DB :=
  match search_chatrooms_id db cid c.uid with
  | none => (.error "chatroom_does_not_exist", db)
  | some fc =>
    if name = "" then (.error "chatroom_name_is_required", db)
    else if max_round.isNone then (.error "chatroom_max_round_is_required", db)
    else if new_agents.isEmpty then (.error "chatroom_agent_is_required", db)
    else
      match validateAgentList new_agents with
      | some msg => (.error msg, db)
      | none =>
        let db1 : DB :=
          { db with apps := db.apps.map (fun a =>
              if a.id = fc.app_id ∧ a.team_id = c.team_id ∧ a.user_id = c.uid ∧ a.mode = 5 then
                { a with name := name, description := description }
              else a) }
        let db2 : DB :=
          { db1 with rooms := db1.rooms.map (fun r =>
              if r.id = cid then { r with max_round := max_round.getD 0 } else r) }
        (.successData,
         { db2 with memberships := reconcileMemberships db2.memberships cid new_agents })

/-- toggle_auto_answer_switch (PUT agents setting, lines 363-422): the chain
of lookups and validations, the last-active-agent guard (the guard fires when
active is 0 and at most one membership of the room is active), then the
single-row membership update. -/
def toggle_auto_answer_switch (db : DB) (c : Caller) (cid aid : Nat)
    (active : Value) : Resp × DB :=
  if cid = 0 then (.error "chatroom_id_is_required", db)
  else
    match search_chatrooms_id db cid c.uid with
    | none => (.error "chatroom_does_not_exist", db)
    | some _ =>
      if aid = 0 then (.error "chatroom_agent_id_is_required", db)
      else if aid ∉ db.agents then (.error "agent_does_not_exist", db)
      else if active = .vNone ∨ active = .vStr "" then
        (.error "chatroom_agent_active_is_required", db)
      else if active ≠ .vInt 0 ∧ active ≠ .vInt 1 then
        (.error "chatroom_agent_active_can_only_input", db)
      else if ¬ (db.memberships.any (fun m => decide (m.chatroom_id = cid ∧ m.agent_id = aid))) then
        (.error "chatroom_agent_relation_does_not_exist", db)
      else if active = .vInt 0 ∧ (get_active_agents_by_chatroom_id db.memberships cid).length ≤ 1 then
        (.error "chatroom_agent_number_less_than_one", db)
      else
        (.successData,
         { db with memberships := db.memberships.map (fun m =>
             if m.chatroom_id = cid ∧ m.agent_id = aid then { m with active := active } else m) })

/-- chatroom_message (GET chatroom_message, lines 425-457; the source names
this handler show_chatroom_details as well): reads a page of history, then
unconditionally marks the room inactive and every message of the room read.
The page arguments only affect the read, never the writes. -/
def chatroom_message (db : DB) (c : Caller) (cid : Nat)
    (page page_size : Nat) : Resp × DB :=
  match search_chatrooms_id db cid c.uid with
  | none => (.error "chatroom_does_not_exist", db)
  | some _ =>
    let db1 : DB :=
      { db with rooms := db.rooms.map (fun r =>
          if r.id = cid then { r with active := 0 } else r) }
    let db2 : DB :=
      { db1 with messages := db1.messages.map (fun m =>
          if m.chatroom_id = cid then { m with is_read := 1 } else m) }
    (.successData, db2)

/-- The active value the upsert fold leaves for agent id a: the activeVal of
the last entry of es whose agentId is a, or the default d when none is. -/
def lastActive : List AgentEntry → Nat → Value → Value
  | [], _, d => d
  | e :: t, a, d => lastActive t a (if e.agentId = a then e.activeVal else d)

/-- The invariant of claim C2, phrased over rows so it is decidable: every
room that has a membership row has one whose active flag is 1. -/
def roomActiveInv (ms : List AgentRelation) : Prop :=
  ∀ m ∈ ms, ∃ m2 ∈ ms, m2.chatroom_id = m.chatroom_id ∧ m2.active = Value.vInt 1

instance (ms : List AgentRelation) : Decidable (roomActiveInv ms) := by
  unfold roomActiveInv
  infer_instance

/-- A concrete store state used to instantiate the theorems below: one room
(id 1, owner 7, team 9, app 1) with an active membership for agent 1 and an
inactive one for agent 2, two messages, and agents 1, 2, 3 registered. -/
def dbW : DB :=
  { apps := [⟨1, 9, 7, "n", "d", 5, 1⟩],
    rooms := [⟨1, 9, 7, 1, 10, Value.vInt 0, 1, 1⟩],
    memberships := [⟨1, 1, Value.vInt 1⟩, ⟨1, 2, Value.vInt 0⟩],
    messages := [⟨1, 1, 0⟩, ⟨2, 2, 0⟩],
    agents := [1, 2, 3],
    next_app_id := 2,
    next_room_id := 2 }

/-- The concrete caller owning the room of dbW. -/
def cW : Caller := ⟨7, 9⟩

/-! Helper lemmas about the membership store operations. -/

theorem mem_deleteAgentRow (ms : List AgentRelation) (cid aid : Nat) (m : AgentRelation) :
    m ∈ deleteAgentRow ms cid aid ↔ m ∈ ms ∧ ¬(m.chatroom_id = cid ∧ m.agent_id = aid) := by
  simp only [deleteAgentRow, List.mem_filter, Bool.not_eq_true', decide_eq_false_iff_not]

theorem mem_deleteAgents (cid : Nat) :
    ∀ (L : List Nat) (ms : List AgentRelation) (m : AgentRelation),
      m ∈ deleteAgents ms cid L ↔ m ∈ ms ∧ ¬(m.chatroom_id = cid ∧ m.agent_id ∈ L) := by
  intro L
  induction L with
  | nil => intro ms m; simp [deleteAgents]
  | cons a t ih =>
    intro ms m
    have step : deleteAgents ms cid (a :: t) = deleteAgents (deleteAgentRow ms cid a) cid t := rfl
    rw [step, ih, mem_deleteAgentRow]
    constructor
    · rintro ⟨⟨hm, h1⟩, h2⟩
      refine ⟨hm, ?_⟩
      rintro ⟨hc, hmem⟩
      rcases List.mem_cons.mp hmem with h | h
      · exact h1 ⟨hc, h⟩
      · exact h2 ⟨hc, h⟩
    · rintro ⟨hm, h⟩
      refine ⟨⟨hm, ?_⟩, ?_⟩
      · rintro ⟨hc, ha⟩
        exact h ⟨hc, List.mem_cons.mpr (Or.inl ha)⟩
      · rintro ⟨hc, ha⟩
        exact h ⟨hc, List.mem_cons.mpr (Or.inr ha)⟩

theorem mem_existingAgentIds (ms : List AgentRelation) (cid a : Nat) :
    a ∈ existingAgentIds ms cid ↔ ∃ m ∈ ms, m.chatroom_id = cid ∧ m.agent_id = a := by
  simp only [existingAgentIds, get_agents_by_chatroom_id, List.mem_map, List.mem_filter,
    decide_eq_true_eq]
  constructor
  · rintro ⟨m, ⟨hm, hc⟩, ha⟩
    exact ⟨m, hm, hc, ha⟩
  · rintro ⟨m, hm, hc, ha⟩
    exact ⟨m, ⟨hm, hc⟩, ha⟩

theorem lastActive_not_mem (a : Nat) :
    ∀ (es : List AgentEntry) (d : Value), a ∉ newAgentIds es → lastActive es a d = d := by
  intro es
  induction es with
  | nil => intro d _; rfl
  | cons e t ih =>
    intro d h
    simp only [newAgentIds, List.map_cons, List.mem_cons] at h
    push_neg at h
    show lastActive t a (if e.agentId = a then e.activeVal else d) = d
    rw [if_neg (fun he => h.1 he.symm), ih _ h.2]

theorem lastActive_indep (a : Nat) :
    ∀ (es : List AgentEntry) (d1 d2 : Value), a ∈ newAgentIds es →
      lastActive es a d1 = lastActive es a d2 := by
  intro es
  induction es with
  | nil => intro d1 d2 h; simp [newAgentIds] at h
  | cons e t ih =>
    intro d1 d2 h
    show lastActive t a (if e.agentId = a then e.activeVal else d1)
       = lastActive t a (if e.agentId = a then e.activeVal else d2)
    by_cases he : e.agentId = a
    · rw [if_pos he, if_pos he]
    · rw [if_neg he, if_neg he]
      simp only [newAgentIds, List.map_cons, List.mem_cons] at h
      rcases h with h | h
      · exact absurd h.symm he
      · exact ih d1 d2 h

theorem lastActive_filter (a : Nat) (p : AgentEntry → Bool) :
    ∀ (es : List AgentEntry) (d : Value), (∀ e ∈ es, e.agentId = a → p e = true) →
      lastActive (es.filter p) a d = lastActive es a d := by
  intro es
  induction es with
  | nil => intro d _; rfl
  | cons e t ih =>
    intro d h
    by_cases hp : p e = true
    · rw [List.filter_cons_of_pos hp]
      show lastActive (t.filter p) a (if e.agentId = a then e.activeVal else d)
         = lastActive t a (if e.agentId = a then e.activeVal else d)
      exact ih _ (fun x hx => h x (List.mem_cons_of_mem e hx))
    · rw [List.filter_cons_of_neg hp]
      have he : e.agentId ≠ a := fun hea => hp (h e (List.mem_cons_self e t) hea)
      show lastActive (t.filter p) a d
         = lastActive t a (if e.agentId = a then e.activeVal else d)
      rw [if_neg he]
      exact ih _ (fun x hx => h x (List.mem_cons_of_mem e hx))

theorem lastActive_all (a : Nat) (v : Value) :
    ∀ (es : List AgentEntry) (d : Value), (∀ e ∈ es, e.agentId = a → e.activeVal = v) →
      a ∈ newAgentIds es → lastActive es a d = v := by
  intro es
  induction es with
  | nil => intro d _ h; simp [newAgentIds] at h
  | cons e t ih =>
    intro d hall hmem
    show lastActive t a (if e.agentId = a then e.activeVal else d) = v
    by_cases ht : a ∈ newAgentIds t
    · exact ih _ (fun x hx => hall x (List.mem_cons_of_mem e hx)) ht
    · simp only [newAgentIds, List.map_cons, List.mem_cons] at hmem
      rcases hmem with hea | hea
      · rw [if_pos hea.symm, lastActive_not_mem a t _ ht]
        exact hall e (List.mem_cons_self e t) hea.symm
      · exact absurd hea ht

theorem exists_key_upsertAgent (ms : List AgentRelation) (cid : Nat) (e : AgentEntry)
    (r a : Nat) :
    (∃ m ∈ upsertAgent ms cid e, m.chatroom_id = r ∧ m.agent_id = a) ↔
      ((∃ m ∈ ms, m.chatroom_id = r ∧ m.agent_id = a) ∨ (r = cid ∧ a = e.agentId)) := by
  have hpres : ∀ m : AgentRelation,
      ((if m.chatroom_id = cid ∧ m.agent_id = e.agentId then
          { m with active := e.activeVal } else m).chatroom_id = m.chatroom_id) ∧
      ((if m.chatroom_id = cid ∧ m.agent_id = e.agentId then
          { m with active := e.activeVal } else m).agent_id = m.agent_id) := by
    intro m
    by_cases h : m.chatroom_id = cid ∧ m.agent_id = e.agentId <;> simp [h]
  unfold upsertAgent
  by_cases h : (ms.any fun m => decide (m.chatroom_id = cid ∧ m.agent_id = e.agentId)) = true
  · rw [if_pos h]
    rw [List.any_eq_true] at h
    obtain ⟨m0, hm0, hk⟩ := h
    rw [decide_eq_true_eq] at hk
    constructor
    · rintro ⟨m', hm', hr, ha⟩
      rw [List.mem_map] at hm'
      obtain ⟨m, hm, rfl⟩ := hm'
      exact Or.inl ⟨m, hm, ((hpres m).1).symm.trans hr, ((hpres m).2).symm.trans ha⟩
    · rintro (⟨m, hm, hr, ha⟩ | ⟨rfl, rfl⟩)
      · exact ⟨_, List.mem_map_of_mem _ hm, (hpres m).1.trans hr, (hpres m).2.trans ha⟩
      · exact ⟨_, List.mem_map_of_mem _ hm0, (hpres m0).1.trans hk.1, (hpres m0).2.trans hk.2⟩
  · rw [if_neg h]
    constructor
    · rintro ⟨m, hm, hr, ha⟩
      rcases List.mem_append.mp hm with hin | hin
      · exact Or.inl ⟨m, hin, hr, ha⟩
      · rw [List.mem_singleton] at hin
        subst hin
        exact Or.inr ⟨hr.symm, ha.symm⟩
    · rintro (⟨m, hm, hr, ha⟩ | ⟨rfl, rfl⟩)
      · exact ⟨m, List.mem_append.mpr (Or.inl hm), hr, ha⟩
      · exact ⟨_, List.mem_append.mpr (Or.inr (List.mem_singleton.mpr rfl)), rfl, rfl⟩

theorem exists_key_insert_agent (cid r a : Nat) :
    ∀ (es : List AgentEntry) (ms : List AgentRelation),
      (∃ m ∈ insert_agent ms cid es, m.chatroom_id = r ∧ m.agent_id = a) ↔
        ((∃ m ∈ ms, m.chatroom_id = r ∧ m.agent_id = a) ∨ (r = cid ∧ a ∈ newAgentIds es)) := by
  intro es
  induction es with
  | nil => intro ms; simp [insert_agent, newAgentIds]
  | cons e t ih =>
    intro ms
    have step : insert_agent ms cid (e :: t) = insert_agent (upsertAgent ms cid e) cid t := rfl
    rw [step, ih, exists_key_upsertAgent]
    simp only [newAgentIds, List.map_cons, List.mem_cons]
    constructor
    · rintro ((h | ⟨rfl, rfl⟩) | ⟨rfl, h⟩)
      · exact Or.inl h
      · exact Or.inr ⟨rfl, Or.inl rfl⟩
      · exact Or.inr ⟨rfl, Or.inr h⟩
    · rintro (h | ⟨rfl, (rfl | h)⟩)
      · exact Or.inl (Or.inl h)
      · exact Or.inl (Or.inr ⟨rfl, rfl⟩)
      · exact Or.inr ⟨rfl, h⟩

theorem active_upsertAgent_key (ms : List AgentRelation) (cid : Nat) (e : AgentEntry) :
    ∀ m ∈ upsertAgent ms cid e, m.chatroom_id = cid → m.agent_id = e.agentId →
      m.active = e.activeVal := by
  intro m hm hc ha
  unfold upsertAgent at hm
  by_cases h : (ms.any fun m => decide (m.chatroom_id = cid ∧ m.agent_id = e.agentId)) = true
  · rw [if_pos h] at hm
    rw [List.mem_map] at hm
    obtain ⟨m0, hm0, rfl⟩ := hm
    by_cases hk : m0.chatroom_id = cid ∧ m0.agent_id = e.agentId
    · simp only [if_pos hk]
    · rw [if_neg hk] at hc ha ⊢
      exact absurd ⟨hc, ha⟩ hk
  · rw [if_neg h] at hm
    rcases List.mem_append.mp hm with hin | hin
    · exfalso
      apply h
      rw [List.any_eq_true]
      exact ⟨m, hin, decide_eq_true ⟨hc, ha⟩⟩
    · rw [List.mem_singleton] at hin
      subst hin
      rfl

theorem active_upsertAgent_uniform (ms : List AgentRelation) (cid : Nat) (e : AgentEntry)
    (a : Nat) (d : Value)
    (hms : ∀ m ∈ ms, m.chatroom_id = cid → m.agent_id = a → m.active = d) :
    ∀ m ∈ upsertAgent ms cid e, m.chatroom_id = cid → m.agent_id = a →
      m.active = (if e.agentId = a then e.activeVal else d) := by
  intro m hm hc ha
  by_cases he : e.agentId = a
  · rw [if_pos he]
    exact active_upsertAgent_key ms cid e m hm hc (ha.trans he.symm)
  · rw [if_neg he]
    unfold upsertAgent at hm
    by_cases h : (ms.any fun m => decide (m.chatroom_id = cid ∧ m.agent_id = e.agentId)) = true
    · rw [if_pos h] at hm
      rw [List.mem_map] at hm
      obtain ⟨m0, hm0, rfl⟩ := hm
      by_cases hk : m0.chatroom_id = cid ∧ m0.agent_id = e.agentId
      · rw [if_pos hk] at ha
        exact absurd (hk.2.symm.trans ha) he
      · rw [if_neg hk] at hc ha ⊢
        exact hms m0 hm0 hc ha
    · rw [if_neg h] at hm
      rcases List.mem_append.mp hm with hin | hin
      · exact hms m hin hc ha
      · rw [List.mem_singleton] at hin
        subst hin
        exact absurd ha he

theorem active_insert_agent_uniform (cid a : Nat) :
    ∀ (es : List AgentEntry) (ms : List AgentRelation) (d : Value),
      (∀ m ∈ ms, m.chatroom_id = cid → m.agent_id = a → m.active = d) →
      ∀ m ∈ insert_agent ms cid es, m.chatroom_id = cid → m.agent_id = a →
        m.active = lastActive es a d := by
  intro es
  induction es with
  | nil => intro ms d hms m hm hc ha; exact hms m hm hc ha
  | cons e t ih =>
    intro ms d hms m hm hc ha
    have step : insert_agent ms cid (e :: t) = insert_agent (upsertAgent ms cid e) cid t := rfl
    rw [step] at hm
    show m.active = lastActive t a (if e.agentId = a then e.activeVal else d)
    exact ih (upsertAgent ms cid e) _ (active_upsertAgent_uniform ms cid e a d hms) m hm hc ha

theorem active_insert_agent_mem (cid a : Nat) :
    ∀ (es : List AgentEntry) (ms : List AgentRelation) (d : Value), a ∈ newAgentIds es →
      ∀ m ∈ insert_agent ms cid es, m.chatroom_id = cid → m.agent_id = a →
        m.active = lastActive es a d := by
  intro es
  induction es with
  | nil => intro ms d h; simp [newAgentIds] at h
  | cons e t ih =>
    intro ms d hmem m hm hc ha
    have step : insert_agent ms cid (e :: t) = insert_agent (upsertAgent ms cid e) cid t := rfl
    rw [step] at hm
    show m.active = lastActive t a (if e.agentId = a then e.activeVal else d)
    by_cases ht : a ∈ newAgentIds t
    · exact ih (upsertAgent ms cid e) _ ht m hm hc ha
    · simp only [newAgentIds, List.map_cons, List.mem_cons] at hmem
      rcases hmem with hea | hea
      · have huni : ∀ m1 ∈ upsertAgent ms cid e, m1.chatroom_id = cid → m1.agent_id = a →
            m1.active = e.activeVal := fun m1 hm1 hc1 ha1 =>
          active_upsertAgent_key ms cid e m1 hm1 hc1 (ha1.trans hea)
        have hval := active_insert_agent_uniform cid a t (upsertAgent ms cid e) e.activeVal
          huni m hm hc ha
        rw [if_pos hea.symm]
        exact hval
      · exact absurd hea ht

theorem mem_newAgentIds (es : List AgentEntry) (a : Nat) :
    a ∈ newAgentIds es ↔ ∃ e ∈ es, e.agentId = a := by
  simp [newAgentIds, List.mem_map]

theorem newAgentIds_cons (e : AgentEntry) (t : List AgentEntry) :
    newAgentIds (e :: t) = e.agentId :: newAgentIds t := rfl

theorem lastActive_cons (e : AgentEntry) (t : List AgentEntry) (a : Nat) (d : Value) :
    lastActive (e :: t) a d = lastActive t a (if e.agentId = a then e.activeVal else d) := rfl

theorem insert_agent_all_present (cid : Nat) :
    ∀ (es : List AgentEntry) (ms : List AgentRelation),
      (∀ e ∈ es, ∃ m ∈ ms, m.chatroom_id = cid ∧ m.agent_id = e.agentId) →
      insert_agent ms cid es = ms.map (fun m =>
        if m.chatroom_id = cid ∧ m.agent_id ∈ newAgentIds es then
          { m with active := lastActive es m.agent_id m.active }
        else m) := by
  intro es
  induction es with
  | nil =>
    intro ms _
    show ms = ms.map _
    simp [newAgentIds]
  | cons e t ih =>
    intro ms hpre
    have hany : (ms.any fun m => decide (m.chatroom_id = cid ∧ m.agent_id = e.agentId)) = true := by
      rw [List.any_eq_true]
      obtain ⟨m, hm, hc, ha⟩ := hpre e (List.mem_cons_self e t)
      exact ⟨m, hm, decide_eq_true ⟨hc, ha⟩⟩
    have hup : upsertAgent ms cid e = ms.map (fun m =>
        if m.chatroom_id = cid ∧ m.agent_id = e.agentId then
          { m with active := e.activeVal } else m) := by
      unfold upsertAgent
      rw [if_pos hany]
    have step : insert_agent ms cid (e :: t) = insert_agent (upsertAgent ms cid e) cid t := rfl
    have hpre' : ∀ e2 ∈ t, ∃ m ∈ upsertAgent ms cid e,
        m.chatroom_id = cid ∧ m.agent_id = e2.agentId := fun e2 he2 =>
      (exists_key_upsertAgent ms cid e cid e2.agentId).mpr
        (Or.inl (hpre e2 (List.mem_cons_of_mem e he2)))
    rw [step, ih _ hpre', hup, List.map_map]
    apply List.map_congr_left
    intro m _
    obtain ⟨mc, ma, mv⟩ := m
    simp only [Function.comp_apply, newAgentIds_cons, List.mem_cons, lastActive_cons]
    by_cases hc : mc = cid
    · subst hc
      by_cases hae : ma = e.agentId
      · subst hae
        by_cases hat : e.agentId ∈ newAgentIds t
        · simp [hat]
        · simp [hat, lastActive_not_mem e.agentId t e.activeVal hat]
      · have hne : ¬ (e.agentId = ma) := fun h => hae h.symm
        by_cases hat : ma ∈ newAgentIds t
        · simp [hat, hae, hne]
        · simp [hat, hae, hne]
    · simp [hc]

theorem reconcile_eq (ms : List AgentRelation) (cid : Nat) (es : List AgentEntry) :
    reconcileMemberships ms cid es =
      insert_agent (insert_agent (deleteAgents ms cid (agentsToDelete ms cid es)) cid
        (agentsToAdd ms cid es)) cid (agentsToUpdate ms cid es) := by
  have h1 : ∀ (l : List Nat) (x : List AgentRelation),
      (if l.isEmpty then x else deleteAgents x cid l) = deleteAgents x cid l := by
    intro l x
    cases l <;> simp [deleteAgents]
  have h2 : ∀ (l : List AgentEntry) (x : List AgentRelation),
      (if l.isEmpty then x else insert_agent x cid l) = insert_agent x cid l := by
    intro l x
    cases l <;> simp [insert_agent]
  simp only [reconcileMemberships]
  rw [h1, h2, h2]

theorem exists_key_reconcile (ms : List AgentRelation) (cid : Nat) (es : List AgentEntry)
    (a : Nat) :
    (∃ m ∈ reconcileMemberships ms cid es, m.chatroom_id = cid ∧ m.agent_id = a) ↔
      a ∈ newAgentIds es := by
  rw [reconcile_eq, exists_key_insert_agent, exists_key_insert_agent]
  constructor
  · rintro ((⟨m, hm, hc, ha⟩ | ⟨_, hadd⟩) | ⟨_, hupd⟩)
    · rw [mem_deleteAgents] at hm
      obtain ⟨hm0, hnd⟩ := hm
      by_cases hnew : a ∈ newAgentIds es
      · exact hnew
      · exfalso
        apply hnd
        refine ⟨hc, ?_⟩
        unfold agentsToDelete
        rw [List.mem_filter, ha]
        exact ⟨(mem_existingAgentIds ms cid a).mpr ⟨m, hm0, hc, ha⟩, decide_eq_true hnew⟩
    · obtain ⟨e, he, hea⟩ := (mem_newAgentIds _ a).mp hadd
      unfold agentsToAdd at he
      rw [List.mem_filter] at he
      exact (mem_newAgentIds es a).mpr ⟨e, he.1, hea⟩
    · obtain ⟨e, he, hea⟩ := (mem_newAgentIds _ a).mp hupd
      unfold agentsToUpdate at he
      rw [List.mem_filter] at he
      exact (mem_newAgentIds es a).mpr ⟨e, he.1, hea⟩
  · intro hnew
    obtain ⟨e, he, hea⟩ := (mem_newAgentIds es a).mp hnew
    by_cases hex : a ∈ existingAgentIds ms cid
    · right
      refine ⟨rfl, (mem_newAgentIds _ a).mpr ⟨e, ?_, hea⟩⟩
      unfold agentsToUpdate
      rw [List.mem_filter]
      exact ⟨he, decide_eq_true (by rw [hea]; exact hex)⟩
    · left
      right
      refine ⟨rfl, (mem_newAgentIds _ a).mpr ⟨e, ?_, hea⟩⟩
      unfold agentsToAdd
      rw [List.mem_filter]
      exact ⟨he, decide_eq_true (by rw [hea]; exact hex)⟩

theorem active_reconcile (ms : List AgentRelation) (cid : Nat) (es : List AgentEntry)
    (a : Nat) (ha : a ∈ newAgentIds es) (d : Value) :
    ∀ m ∈ reconcileMemberships ms cid es, m.chatroom_id = cid → m.agent_id = a →
      m.active = lastActive es a d := by
  rw [reconcile_eq]
  by_cases hex : a ∈ existingAgentIds ms cid
  · have hupd : a ∈ newAgentIds (agentsToUpdate ms cid es) := by
      obtain ⟨e, he, hea⟩ := (mem_newAgentIds es a).mp ha
      refine (mem_newAgentIds _ a).mpr ⟨e, ?_, hea⟩
      unfold agentsToUpdate
      rw [List.mem_filter]
      exact ⟨he, decide_eq_true (by rw [hea]; exact hex)⟩
    intro m hm hc hma
    have hval := active_insert_agent_mem cid a (agentsToUpdate ms cid es) _ d hupd m hm hc hma
    rw [hval]
    apply lastActive_filter
    intro e he hea
    exact decide_eq_true (by rw [hea]; exact hex)
  · have hadd : a ∈ newAgentIds (agentsToAdd ms cid es) := by
      obtain ⟨e, he, hea⟩ := (mem_newAgentIds es a).mp ha
      refine (mem_newAgentIds _ a).mpr ⟨e, ?_, hea⟩
      unfold agentsToAdd
      rw [List.mem_filter]
      exact ⟨he, decide_eq_true (by rw [hea]; exact hex)⟩
    have hnupd : a ∉ newAgentIds (agentsToUpdate ms cid es) := by
      intro hcon
      obtain ⟨e, he, hea⟩ := (mem_newAgentIds _ a).mp hcon
      unfold agentsToUpdate at he
      rw [List.mem_filter, decide_eq_true_eq] at he
      rw [hea] at he
      exact hex he.2
    intro m hm hc hma
    have hinner : ∀ m1 ∈ insert_agent (deleteAgents ms cid (agentsToDelete ms cid es)) cid
        (agentsToAdd ms cid es),
        m1.chatroom_id = cid → m1.agent_id = a →
          m1.active = lastActive (agentsToAdd ms cid es) a d :=
      active_insert_agent_mem cid a _ _ d hadd
    have houter := active_insert_agent_uniform cid a (agentsToUpdate ms cid es) _
      (lastActive (agentsToAdd ms cid es) a d) hinner m hm hc hma
    rw [houter, lastActive_not_mem a _ _ hnupd]
    apply lastActive_filter
    intro e he hea
    exact decide_eq_true (by rw [hea]; exact hex)

theorem reconcile_idem (ms : List AgentRelation) (cid : Nat) (es : List AgentEntry) :
    reconcileMemberships (reconcileMemberships ms cid es) cid es =
      reconcileMemberships ms cid es := by
  have hids : ∀ a, a ∈ existingAgentIds (reconcileMemberships ms cid es) cid ↔
      a ∈ newAgentIds es := by
    intro a
    rw [mem_existingAgentIds]
    exact exists_key_reconcile ms cid es a
  have hdel : agentsToDelete (reconcileMemberships ms cid es) cid es = [] := by
    unfold agentsToDelete
    apply List.filter_eq_nil_iff.mpr
    intro a hmem
    rw [hids a] at hmem
    intro hd
    rw [decide_eq_true_eq] at hd
    exact hd hmem
  have hadd : agentsToAdd (reconcileMemberships ms cid es) cid es = [] := by
    unfold agentsToAdd
    apply List.filter_eq_nil_iff.mpr
    intro e he
    have hin : e.agentId ∈ newAgentIds es := (mem_newAgentIds es _).mpr ⟨e, he, rfl⟩
    intro hd
    rw [decide_eq_true_eq] at hd
    exact hd ((hids e.agentId).mpr hin)
  have hupd : agentsToUpdate (reconcileMemberships ms cid es) cid es = es := by
    unfold agentsToUpdate
    apply List.filter_eq_self.mpr
    intro e he
    exact decide_eq_true ((hids e.agentId).mpr ((mem_newAgentIds es _).mpr ⟨e, he, rfl⟩))
  rw [reconcile_eq (reconcileMemberships ms cid es) cid es, hdel, hadd, hupd]
  have h0 : deleteAgents (reconcileMemberships ms cid es) cid [] =
      reconcileMemberships ms cid es := rfl
  have h1 : insert_agent (reconcileMemberships ms cid es) cid [] =
      reconcileMemberships ms cid es := rfl
  rw [h0, h1]
  rw [insert_agent_all_present cid es (reconcileMemberships ms cid es)
    (fun e he => (exists_key_reconcile ms cid es e.agentId).mpr
      ((mem_newAgentIds es _).mpr ⟨e, he, rfl⟩))]
  have hfix : ∀ m ∈ reconcileMemberships ms cid es,
      (if m.chatroom_id = cid ∧ m.agent_id ∈ newAgentIds es then
        { m with active := lastActive es m.agent_id m.active }
      else m) = id m := by
    intro m hm
    by_cases hcond : m.chatroom_id = cid ∧ m.agent_id ∈ newAgentIds es
    · rw [if_pos hcond]
      have hval := active_reconcile ms cid es m.agent_id hcond.2 m.active m hm hcond.1 rfl
      rw [← hval]
      rfl
    · rw [if_neg hcond]
      rfl
  rw [List.map_congr_left hfix, List.map_id]

/-! Success-path characterizations of the two bulk-write handlers. -/

theorem update_chatroom_success (db : DB) (c : Caller) (cid : Nat)
    (name description : String) (mr : Option Nat) (es : List AgentEntry) (fc : Room)
    (hfind : search_chatrooms_id db cid c.uid = some fc)
    (hname : name ≠ "") (hmr : mr.isSome = true) (hne : es ≠ [])
    (hval : validateAgentList es = none) :
    update_chatroom db c cid name description mr es =
      (.successData,
       { db with
         apps := db.apps.map (fun a =>
           if a.id = fc.app_id ∧ a.team_id = c.team_id ∧ a.user_id = c.uid ∧ a.mode = 5 then
             { a with name := name, description := description }
           else a),
         rooms := db.rooms.map (fun r =>
           if r.id = cid then { r with max_round := mr.getD 0 } else r),
         memberships := reconcileMemberships db.memberships cid es }) := by
  obtain ⟨v, rfl⟩ := Option.isSome_iff_exists.mp hmr
  obtain ⟨e0, es', rfl⟩ := List.exists_cons_of_ne_nil hne
  simp only [update_chatroom, hfind, hname, hval, Option.isNone_some, List.isEmpty_cons,
    if_false, ite_false, Bool.false_eq_true, if_neg hname]

theorem create_chatroom_success (db : DB) (c : Caller) (name description : String)
    (mr : Option Nat) (es : List AgentEntry)
    (hname : name ≠ "") (hmr : mr.isSome = true) (hne : es ≠ [])
    (hval : validateAgentList es = none) :
    create_chatroom db c name description mr es =
      (.successData,
       { db with
         apps := db.apps ++ [⟨db.next_app_id, c.team_id, c.uid, name, description, 5, 1⟩],
         next_app_id := db.next_app_id + 1,
         rooms := db.rooms ++ [⟨db.next_room_id, c.team_id, c.uid, db.next_app_id,
                                mr.getD 0, Value.vInt 0, 1, 1⟩],
         next_room_id := db.next_room_id + 1,
         memberships := insert_agent db.memberships db.next_room_id es }) := by
  obtain ⟨v, rfl⟩ := Option.isSome_iff_exists.mp hmr
  obtain ⟨e0, es', rfl⟩ := List.exists_cons_of_ne_nil hne
  simp only [create_chatroom, hname, hval, Option.isNone_some, List.isEmpty_cons,
    if_false, ite_false, Bool.false_eq_true, if_neg hname]

/-! Invariant-preservation building blocks for the settings, deletion and
history operations. -/

theorem smart_selection_memberships (db : DB) (c : Caller) (cid : Nat) (v : Value) :
    (toggle_smart_selection_switch db c cid v).2.memberships = db.memberships := by
  unfold toggle_smart_selection_switch
  by_cases h0 : cid = 0
  · rw [if_pos h0]
  · rw [if_neg h0]
    cases hs : search_chatrooms_id db cid c.uid with
    | none => rfl
    | some fc =>
      by_cases h1 : v = Value.vNone ∨ v = Value.vStr ""
      · rw [if_pos h1]
      · rw [if_neg h1]
        by_cases h2 : v ≠ Value.vInt 0 ∧ v ≠ Value.vInt 1
        · rw [if_pos h2]
        · rw [if_neg h2]

theorem history_memberships (db : DB) (c : Caller) (cid page psz : Nat) :
    (chatroom_message db c cid page psz).2.memberships = db.memberships := by
  unfold chatroom_message
  cases hs : search_chatrooms_id db cid c.uid with
  | none => rfl
  | some fc => rfl

theorem delete_preserves_inv (db : DB) (c : Caller) (cid : Nat)
    (hinv : roomActiveInv db.memberships) :
    roomActiveInv (delete_chatroom db c cid).2.memberships := by
  unfold delete_chatroom
  by_cases h0 : cid = 0
  · rw [if_pos h0]
    exact hinv
  · rw [if_neg h0]
    cases hs : search_chatrooms_id db cid c.uid with
    | none => exact hinv
    | some fc =>
      intro m hm
      rw [List.mem_filter] at hm
      obtain ⟨hm0, hflt⟩ := hm
      obtain ⟨m2, hm2, hcc, hact⟩ := hinv m hm0
      refine ⟨m2, List.mem_filter.mpr ⟨hm2, ?_⟩, hcc, hact⟩
      rw [hcc]
      exact hflt

theorem exists_active_ne (ms : List AgentRelation) (cid aid : Nat)
    (hnd : (ms.map (fun m => (m.chatroom_id, m.agent_id))).Nodup)
    (hlen : 2 ≤ (get_active_agents_by_chatroom_id ms cid).length) :
    ∃ m ∈ ms, m.chatroom_id = cid ∧ m.active = Value.vInt 1 ∧ m.agent_id ≠ aid := by
  have hsub : List.Sublist (get_active_agents_by_chatroom_id ms cid) ms :=
    List.filter_sublist ms
  have hndl : ((get_active_agents_by_chatroom_id ms cid).map
      (fun m => (m.chatroom_id, m.agent_id))).Nodup :=
    List.Nodup.sublist (List.Sublist.map _ hsub) hnd
  obtain ⟨x, t, hxt⟩ := List.exists_cons_of_ne_nil
    (l := get_active_agents_by_chatroom_id ms cid)
    (by intro h; rw [h] at hlen; simp at hlen)
  obtain ⟨y, t2, hyt⟩ := List.exists_cons_of_ne_nil (l := t)
    (by intro h; rw [hxt, h] at hlen; simp at hlen)
  have hx : x ∈ get_active_agents_by_chatroom_id ms cid := by
    rw [hxt]
    exact List.mem_cons_self x t
  have hy : y ∈ get_active_agents_by_chatroom_id ms cid := by
    rw [hxt, hyt]
    exact List.mem_cons_of_mem x (List.mem_cons_self y t2)
  have hxp := List.mem_filter.mp hx
  have hyp := List.mem_filter.mp hy
  rw [decide_eq_true_eq] at hxp hyp
  have hkey : (x.chatroom_id, x.agent_id) ≠ (y.chatroom_id, y.agent_id) := by
    rw [hxt, hyt] at hndl
    rw [List.map_cons, List.map_cons, List.nodup_cons] at hndl
    exact fun h => hndl.1 (h ▸ List.mem_cons_self _ _)
  have hagents : x.agent_id ≠ y.agent_id := by
    intro h
    exact hkey (by rw [hxp.2.1, hyp.2.1, h])
  by_cases hxa : x.agent_id = aid
  · exact ⟨y, hyp.1, hyp.2.1, hyp.2.2, fun h => hagents (hxa.trans h.symm)⟩
  · exact ⟨x, hxp.1, hxp.2.1, hxp.2.2, hxa⟩

theorem toggle_auto_preserves_inv (db : DB) (c : Caller) (cid aid : Nat) (v : Value)
    (hinv : roomActiveInv db.memberships)
    (hnd : (db.memberships.map (fun m => (m.chatroom_id, m.agent_id))).Nodup) :
    roomActiveInv (toggle_auto_answer_switch db c cid aid v).2.memberships := by
  unfold toggle_auto_answer_switch
  by_cases h0 : cid = 0
  · rw [if_pos h0]
    exact hinv
  · rw [if_neg h0]
    cases hs : search_chatrooms_id db cid c.uid with
    | none => exact hinv
    | some fc =>
      by_cases h1 : aid = 0
      · rw [if_pos h1]
        exact hinv
      · rw [if_neg h1]
        by_cases h2 : aid ∉ db.agents
        · rw [if_pos h2]
          exact hinv
        · rw [if_neg h2]
          by_cases h3 : v = Value.vNone ∨ v = Value.vStr ""
          · rw [if_pos h3]
            exact hinv
          · rw [if_neg h3]
            by_cases h4 : v ≠ Value.vInt 0 ∧ v ≠ Value.vInt 1
            · rw [if_pos h4]
              exact hinv
            · rw [if_neg h4]
              by_cases h5 : ¬ (db.memberships.any fun m =>
                  decide (m.chatroom_id = cid ∧ m.agent_id = aid)) = true
              · rw [if_pos h5]
                exact hinv
              · rw [if_neg h5]
                by_cases h6 : v = Value.vInt 0 ∧
                    (get_active_agents_by_chatroom_id db.memberships cid).length ≤ 1
                · rw [if_pos h6]
                  exact hinv
                · rw [if_neg h6]
                  intro m' hm'
                  rw [List.mem_map] at hm'
                  obtain ⟨m, hm, rfl⟩ := hm'
                  have hgc : ∀ x : AgentRelation,
                      ((if x.chatroom_id = cid ∧ x.agent_id = aid then
                        { x with active := v } else x).chatroom_id = x.chatroom_id) ∧
                      ((if x.chatroom_id = cid ∧ x.agent_id = aid then
                        { x with active := v } else x).agent_id = x.agent_id) := by
                    intro x
                    by_cases h : x.chatroom_id = cid ∧ x.agent_id = aid <;> simp [h]
                  rcases not_and_or.mp h4 with hv | hv
                  · -- v = vInt 0 : the guard guarantees at least two active rows
                    rw [not_not] at hv
                    subst hv
                    have hlen : 2 ≤ (get_active_agents_by_chatroom_id db.memberships cid).length := by
                      rcases not_and_or.mp h6 with h | h
                      · exact absurd rfl h
                      · omega
                    by_cases hroom : m.chatroom_id = cid
                    · obtain ⟨mstar, hms, hmc, hma, hne⟩ :=
                        exists_active_ne db.memberships cid aid hnd hlen
                      refine ⟨_, List.mem_map_of_mem _ hms, ?_, ?_⟩
                      · rw [(hgc mstar).1, (hgc m).1, hmc, hroom]
                      · rw [if_neg (fun hco => hne hco.2)]
                        exact hma
                    · obtain ⟨m2, hm2, hcc, hact⟩ := hinv m hm
                      refine ⟨_, List.mem_map_of_mem _ hm2, ?_, ?_⟩
                      · rw [(hgc m2).1, (hgc m).1, hcc]
                      · rw [if_neg (fun hco => hroom (hcc ▸ hco.1))]
                        exact hact
                  · -- v = vInt 1 : setting a flag to 1 cannot lose the invariant
                    rw [not_not] at hv
                    subst hv
                    obtain ⟨m2, hm2, hcc, hact⟩ := hinv m hm
                    refine ⟨_, List.mem_map_of_mem _ hm2, ?_, ?_⟩
                    · rw [(hgc m2).1, (hgc m).1, hcc]
                    · by_cases hco : m2.chatroom_id = cid ∧ m2.agent_id = aid
                      · rw [if_pos hco]
                      · rw [if_neg hco]
                        exact hact

/-! Validation and branch characterizations. -/

theorem validateAgentList_isSome :
    ∀ es : List AgentEntry, (∃ e ∈ es, (validAgentItem e).isSome = true) →
      (validateAgentList es).isSome = true := by
  intro es
  induction es with
  | nil =>
    rintro ⟨e, he, _⟩
    exact absurd he (List.not_mem_nil e)
  | cons e t ih =>
    rintro ⟨e2, he2, hsome⟩
    cases hv : validAgentItem e with
    | some msg => simp [validateAgentList, hv]
    | none =>
      have hstep : validateAgentList (e :: t) = validateAgentList t := by
        simp [validateAgentList, hv]
      rw [hstep]
      rcases List.mem_cons.mp he2 with rfl | hmem
      · rw [hv] at hsome
        exact absurd hsome (by simp)
      · exact ih ⟨e2, hmem, hsome⟩

theorem create_chatroom_invalid (db : DB) (c : Caller) (name description : String)
    (mr : Option Nat) (es : List AgentEntry)
    (hbad : es = [] ∨ ∃ e ∈ es, (validAgentItem e).isSome = true) :
    ∃ msg, create_chatroom db c name description mr es = (.error msg, db) := by
  unfold create_chatroom
  by_cases h1 : name = ""
  · rw [if_pos h1]
    exact ⟨_, rfl⟩
  · rw [if_neg h1]
    by_cases h2 : mr.isNone = true
    · rw [if_pos h2]
      exact ⟨_, rfl⟩
    · rw [if_neg h2]
      rcases hbad with rfl | hex
      · rw [if_pos List.isEmpty_nil]
        exact ⟨_, rfl⟩
      · by_cases h3 : es.isEmpty = true
        · rw [if_pos h3]
          exact ⟨_, rfl⟩
        · rw [if_neg h3]
          obtain ⟨msg, hmsg⟩ := Option.isSome_iff_exists.mp (validateAgentList_isSome es hex)
          rw [hmsg]
          exact ⟨msg, rfl⟩

theorem update_chatroom_invalid (db : DB) (c : Caller) (cid : Nat)
    (name description : String) (mr : Option Nat) (es : List AgentEntry)
    (hbad : es = [] ∨ ∃ e ∈ es, (validAgentItem e).isSome = true) :
    ∃ msg, update_chatroom db c cid name description mr es = (.error msg, db) := by
  unfold update_chatroom
  cases hs : search_chatrooms_id db cid c.uid with
  | none => exact ⟨_, rfl⟩
  | some fc =>
    dsimp only
    by_cases h1 : name = ""
    · rw [if_pos h1]
      exact ⟨_, rfl⟩
    · rw [if_neg h1]
      by_cases h2 : mr.isNone = true
      · rw [if_pos h2]
        exact ⟨_, rfl⟩
      · rw [if_neg h2]
        rcases hbad with rfl | hex
        · rw [if_pos List.isEmpty_nil]
          exact ⟨_, rfl⟩
        · by_cases h3 : es.isEmpty = true
          · rw [if_pos h3]
            exact ⟨_, rfl⟩
          · rw [if_neg h3]
            obtain ⟨msg, hmsg⟩ := Option.isSome_iff_exists.mp (validateAgentList_isSome es hex)
            rw [hmsg]
            exact ⟨msg, rfl⟩

theorem toggle_auto_guard (db : DB) (c : Caller) (cid aid : Nat)
    (h0 : cid ≠ 0) (fc : Room) (hs : search_chatrooms_id db cid c.uid = some fc)
    (h1 : aid ≠ 0) (h2 : aid ∈ db.agents)
    (hrel : (db.memberships.any fun m =>
      decide (m.chatroom_id = cid ∧ m.agent_id = aid)) = true)
    (hlen : (get_active_agents_by_chatroom_id db.memberships cid).length ≤ 1) :
    toggle_auto_answer_switch db c cid aid (Value.vInt 0) =
      (.error "chatroom_agent_number_less_than_one", db) := by
  unfold toggle_auto_answer_switch
  rw [if_neg h0, hs, if_neg h1, if_neg (not_not_intro h2)]
  rw [if_neg (by simp : ¬ ((Value.vInt 0 : Value) = Value.vNone ∨
    (Value.vInt 0 : Value) = Value.vStr ""))]
  rw [if_neg (by simp : ¬ ((Value.vInt 0 : Value) ≠ Value.vInt 0 ∧
    (Value.vInt 0 : Value) ≠ Value.vInt 1))]
  rw [if_neg (not_not_intro hrel), if_pos ⟨rfl, hlen⟩]

theorem toggle_auto_deactivate (db : DB) (c : Caller) (cid aid : Nat)
    (h0 : cid ≠ 0) (fc : Room) (hs : search_chatrooms_id db cid c.uid = some fc)
    (h1 : aid ≠ 0) (h2 : aid ∈ db.agents)
    (hrel : (db.memberships.any fun m =>
      decide (m.chatroom_id = cid ∧ m.agent_id = aid)) = true)
    (hlen : 2 ≤ (get_active_agents_by_chatroom_id db.memberships cid).length) :
    toggle_auto_answer_switch db c cid aid (Value.vInt 0) =
      (.successData,
       { db with memberships := db.memberships.map (fun m =>
           if m.chatroom_id = cid ∧ m.agent_id = aid then
             { m with active := Value.vInt 0 } else m) }) := by
  unfold toggle_auto_answer_switch
  rw [if_neg h0, hs, if_neg h1, if_neg (not_not_intro h2)]
  rw [if_neg (by simp : ¬ ((Value.vInt 0 : Value) = Value.vNone ∨
    (Value.vInt 0 : Value) = Value.vStr ""))]
  rw [if_neg (by simp : ¬ ((Value.vInt 0 : Value) ≠ Value.vInt 0 ∧
    (Value.vInt 0 : Value) ≠ Value.vInt 1))]
  rw [if_neg (not_not_intro hrel)]
  rw [if_neg (fun h => absurd h.2 (by omega))]

theorem toggle_auto_rejects_nonbool (db : DB) (c : Caller) (cid aid : Nat) (v : Value)
    (h0 : cid ≠ 0) (fc : Room) (hs : search_chatrooms_id db cid c.uid = some fc)
    (h1 : aid ≠ 0) (h2 : aid ∈ db.agents)
    (hv0 : v ≠ Value.vInt 0) (hv1 : v ≠ Value.vInt 1) :
    ∃ msg, toggle_auto_answer_switch db c cid aid v = (.error msg, db) := by
  unfold toggle_auto_answer_switch
  rw [if_neg h0, hs, if_neg h1, if_neg (not_not_intro h2)]
  by_cases h3 : v = Value.vNone ∨ v = Value.vStr ""
  · rw [if_pos h3]
    exact ⟨_, rfl⟩
  · rw [if_neg h3, if_pos ⟨hv0, hv1⟩]
    exact ⟨_, rfl⟩

theorem search_update_chatroom (db : DB) (c : Caller) (cid : Nat)
    (name description : String) (mr : Option Nat) (es : List AgentEntry) (fc : Room)
    (hfind : search_chatrooms_id db cid c.uid = some fc)
    (hname : name ≠ "") (hmr : mr.isSome = true) (hne : es ≠ [])
    (hval : validateAgentList es = none) :
    search_chatrooms_id (update_chatroom db c cid name description mr es).2 cid c.uid =
      some (if fc.id = cid then { fc with max_round := mr.getD 0 } else fc) := by
  rw [update_chatroom_success db c cid name description mr es fc hfind hname hmr hne hval]
  show (db.rooms.map fun r =>
      if r.id = cid then { r with max_round := mr.getD 0 } else r).find?
    (fun r => decide (r.id = cid ∧ r.user_id = c.uid ∧ r.status ≠ 3)) = _
  rw [List.find?_map]
  have hp : ((fun r : Room => decide (r.id = cid ∧ r.user_id = c.uid ∧ r.status ≠ 3)) ∘
      (fun r => if r.id = cid then { r with max_round := mr.getD 0 } else r)) =
      (fun r : Room => decide (r.id = cid ∧ r.user_id = c.uid ∧ r.status ≠ 3)) := by
    funext r
    by_cases h : r.id = cid <;> simp [h]
  rw [hp]
  unfold search_chatrooms_id at hfind
  rw [hfind]
  rfl

/-! Claim theorems. -/

/-- C1: for a successful update call on an existing owned room with a valid
agent list, the set of agent ids attached to the room afterwards equals
exactly the set of agent ids of the incoming list: rows whose agent id left
the list are deleted, new ids are inserted, and retained ids are re-upserted,
so an id is attached after the call iff it occurs in the incoming list. -/
theorem C1_update_reconciles_membership_set (db : DB) (c : Caller) (cid : Nat)
    (name description : String) (mr : Option Nat) (es : List AgentEntry) (fc : Room)
    (a : Nat)
    (hfind : search_chatrooms_id db cid c.uid = some fc)
    (hname : name ≠ "") (hmr : mr.isSome = true) (hne : es ≠ [])
    (hval : validateAgentList es = none) :
    (∃ m ∈ (update_chatroom db c cid name description mr es).2.memberships,
      m.chatroom_id = cid ∧ m.agent_id = a) ↔ a ∈ newAgentIds es := by
  rw [update_chatroom_success db c cid name description mr es fc hfind hname hmr hne hval]
  exact exists_key_reconcile db.memberships cid es a

/-- C1 witness: updating room 1 of dbW with agents 2 and 3 attaches agent 3
and detaches agent 1. -/
theorem C1_witness :
    ((∃ m ∈ (update_chatroom dbW cW 1 "nm" "d" (some 5)
        [.dict ⟨some 2, some (Value.vInt 1)⟩, .dict ⟨some 3, some (Value.vInt 0)⟩]).2.memberships,
      m.chatroom_id = 1 ∧ m.agent_id = 3) ↔
      3 ∈ newAgentIds [.dict ⟨some 2, some (Value.vInt 1)⟩,
        .dict ⟨some 3, some (Value.vInt 0)⟩]) ∧
    ((∃ m ∈ (update_chatroom dbW cW 1 "nm" "d" (some 5)
        [.dict ⟨some 2, some (Value.vInt 1)⟩, .dict ⟨some 3, some (Value.vInt 0)⟩]).2.memberships,
      m.chatroom_id = 1 ∧ m.agent_id = 1) ↔
      1 ∈ newAgentIds [.dict ⟨some 2, some (Value.vInt 1)⟩,
        .dict ⟨some 3, some (Value.vInt 0)⟩]) :=
  ⟨C1_update_reconciles_membership_set dbW cW 1 "nm" "d" (some 5) _ ⟨1, 9, 7, 1, 10, Value.vInt 0, 1, 1⟩ 3
      (by decide) (by decide) (by decide) (by decide) (by decide),
   C1_update_reconciles_membership_set dbW cW 1 "nm" "d" (some 5) _ ⟨1, 9, 7, 1, 10, Value.vInt 0, 1, 1⟩ 1
      (by decide) (by decide) (by decide) (by decide) (by decide)⟩

/-- C2 counterexample: the claim fails on the code. dbW satisfies the
invariant, yet updating room 1 with the single entry (agent 1, active 0)
leaves the room with a membership row and no active one: update performs no
last-active-agent check. -/
theorem C2_counterexample_update_breaks_inv :
    roomActiveInv dbW.memberships ∧
    ¬ roomActiveInv ((update_chatroom dbW cW 1 "nm" "d" (some 5)
      [.dict ⟨some 1, some (Value.vInt 0)⟩]).2.memberships) := by decide

/-- C2 amended: delete, set_smart_selection, set_agent_active and history
preserve the at-least-one-active-membership invariant (set_agent_active
additionally assuming the (room, agent) key uniqueness the store guarantees);
create and update do not preserve it in general, as an all-inactive incoming
agent list rewrites the room to memberships with no active row. -/
theorem C2_amended_ops_preserve_active_inv (db : DB) (c : Caller)
    (cid aid page psz : Nat) (v v2 : Value)
    (hinv : roomActiveInv db.memberships)
    (hnd : (db.memberships.map (fun m => (m.chatroom_id, m.agent_id))).Nodup) :
    roomActiveInv (delete_chatroom db c cid).2.memberships ∧
    roomActiveInv (toggle_smart_selection_switch db c cid v).2.memberships ∧
    roomActiveInv (toggle_auto_answer_switch db c cid aid v2).2.memberships ∧
    roomActiveInv (chatroom_message db c cid page psz).2.memberships := by
  refine ⟨delete_preserves_inv db c cid hinv, ?_,
    toggle_auto_preserves_inv db c cid aid v2 hinv hnd, ?_⟩
  · rw [smart_selection_memberships]
    exact hinv
  · rw [history_memberships]
    exact hinv

/-- C2 witness: the four operations instantiated on dbW. -/
theorem C2_witness :
    roomActiveInv (delete_chatroom dbW cW 1).2.memberships ∧
    roomActiveInv (toggle_smart_selection_switch dbW cW 1 (Value.vInt 1)).2.memberships ∧
    roomActiveInv (toggle_auto_answer_switch dbW cW 1 2 (Value.vInt 0)).2.memberships ∧
    roomActiveInv (chatroom_message dbW cW 1 1 10).2.memberships :=
  C2_amended_ops_preserve_active_inv dbW cW 1 2 1 10 (Value.vInt 1) (Value.vInt 0)
    (by decide) (by decide)

/-- C3: a set_agent_active call deactivating an agent of an existing owned
room with an existing membership fails with the at-least-one-agent error and
an unchanged store when exactly one membership of the room is active, and
succeeds, clearing the target membership flag, when at least two are. -/
theorem C3_deactivate_guard_vs_success (db : DB) (c : Caller) (cid aid : Nat) (fc : Room)
    (h0 : cid ≠ 0) (hs : search_chatrooms_id db cid c.uid = some fc)
    (h1 : aid ≠ 0) (h2 : aid ∈ db.agents)
    (hrel : (db.memberships.any fun m =>
      decide (m.chatroom_id = cid ∧ m.agent_id = aid)) = true) :
    ((get_active_agents_by_chatroom_id db.memberships cid).length = 1 →
      toggle_auto_answer_switch db c cid aid (Value.vInt 0) =
        (.error "chatroom_agent_number_less_than_one", db)) ∧
    (2 ≤ (get_active_agents_by_chatroom_id db.memberships cid).length →
      (toggle_auto_answer_switch db c cid aid (Value.vInt 0)).1 = .successData ∧
      ∀ m ∈ (toggle_auto_answer_switch db c cid aid (Value.vInt 0)).2.memberships,
        m.chatroom_id = cid → m.agent_id = aid → m.active = Value.vInt 0) := by
  constructor
  · intro hlen
    exact toggle_auto_guard db c cid aid h0 fc hs h1 h2 hrel (by omega)
  · intro hlen
    rw [toggle_auto_deactivate db c cid aid h0 fc hs h1 h2 hrel hlen]
    refine ⟨rfl, ?_⟩
    intro m hm hc ha
    rw [List.mem_map] at hm
    obtain ⟨m0, hm0, rfl⟩ := hm
    by_cases hk : m0.chatroom_id = cid ∧ m0.agent_id = aid
    · simp [hk]
    · rw [if_neg hk] at hc ha
      exact absurd ⟨hc, ha⟩ hk

/-- C3 witness: room 1 of dbW has exactly one active membership, so
deactivating agent 1 is rejected and the store is unchanged. -/
theorem C3_witness :
    toggle_auto_answer_switch dbW cW 1 1 (Value.vInt 0) =
      (.error "chatroom_agent_number_less_than_one", dbW) :=
  (C3_deactivate_guard_vs_success dbW cW 1 1 ⟨1, 9, 7, 1, 10, Value.vInt 0, 1, 1⟩
    (by decide) (by decide) (by decide) (by decide) (by decide)).1 (by decide)

/-- C4: update is idempotent on membership: running the same successful
update twice leaves exactly the membership store the first run produced. -/
theorem C4_update_idempotent_on_membership (db : DB) (c : Caller) (cid : Nat)
    (name description : String) (mr : Option Nat) (es : List AgentEntry) (fc : Room)
    (hfind : search_chatrooms_id db cid c.uid = some fc)
    (hname : name ≠ "") (hmr : mr.isSome = true) (hne : es ≠ [])
    (hval : validateAgentList es = none) :
    (update_chatroom (update_chatroom db c cid name description mr es).2
        c cid name description mr es).2.memberships =
      (update_chatroom db c cid name description mr es).2.memberships := by
  have h2 := search_update_chatroom db c cid name description mr es fc hfind hname hmr hne hval
  rw [update_chatroom_success _ c cid name description mr es _ h2 hname hmr hne hval]
  show reconcileMemberships
      (update_chatroom db c cid name description mr es).2.memberships cid es =
    (update_chatroom db c cid name description mr es).2.memberships
  rw [update_chatroom_success db c cid name description mr es fc hfind hname hmr hne hval]
  show reconcileMemberships (reconcileMemberships db.memberships cid es) cid es =
    reconcileMemberships db.memberships cid es
  exact reconcile_idem db.memberships cid es

/-- C4 witness: the double update of room 1 of dbW with agents 2 and 3. -/
theorem C4_witness :
    (update_chatroom (update_chatroom dbW cW 1 "nm" "d" (some 5)
        [.dict ⟨some 2, some (Value.vInt 1)⟩, .dict ⟨some 3, some (Value.vInt 0)⟩]).2
      cW 1 "nm" "d" (some 5)
        [.dict ⟨some 2, some (Value.vInt 1)⟩, .dict ⟨some 3, some (Value.vInt 0)⟩]).2.memberships =
    (update_chatroom dbW cW 1 "nm" "d" (some 5)
        [.dict ⟨some 2, some (Value.vInt 1)⟩, .dict ⟨some 3, some (Value.vInt 0)⟩]).2.memberships :=
  C4_update_idempotent_on_membership dbW cW 1 "nm" "d" (some 5) _
    ⟨1, 9, 7, 1, 10, Value.vInt 0, 1, 1⟩
    (by decide) (by decide) (by decide) (by decide) (by decide)

/-- C5: a history call on an existing owned room, for every page and
page_size (also past the last page), succeeds, sets the active flag of the
room to 0, and marks every message row of the room read. -/
theorem C5_history_marks_room_and_messages (db : DB) (c : Caller)
    (cid page psz : Nat) (fc : Room)
    (hfind : search_chatrooms_id db cid c.uid = some fc) :
    (chatroom_message db c cid page psz).1 = .successData ∧
    (∀ r ∈ (chatroom_message db c cid page psz).2.rooms, r.id = cid → r.active = 0) ∧
    (∀ m ∈ (chatroom_message db c cid page psz).2.messages,
      m.chatroom_id = cid → m.is_read = 1) := by
  unfold chatroom_message
  rw [hfind]
  refine ⟨rfl, ?_, ?_⟩
  · intro r hr hid
    rw [List.mem_map] at hr
    obtain ⟨r0, hr0, rfl⟩ := hr
    by_cases h : r0.id = cid
    · simp [h]
    · rw [if_neg h] at hid
      exact absurd hid h
  · intro m hm hc
    rw [List.mem_map] at hm
    obtain ⟨m0, hm0, rfl⟩ := hm
    by_cases h : m0.chatroom_id = cid
    · simp [h]
    · rw [if_neg h] at hc
      exact absurd hc h

/-- C5 witness: fetching page 99 of room 1 of dbW still flips the room
inactive and its messages read. -/
theorem C5_witness :
    (chatroom_message dbW cW 1 99 10).1 = Resp.successData ∧
    (∀ r ∈ (chatroom_message dbW cW 1 99 10).2.rooms, r.id = 1 → r.active = 0) ∧
    (∀ m ∈ (chatroom_message dbW cW 1 99 10).2.messages,
      m.chatroom_id = 1 → m.is_read = 1) :=
  C5_history_marks_room_and_messages dbW cW 1 99 10
    ⟨1, 9, 7, 1, 10, Value.vInt 0, 1, 1⟩ (by decide)

/-- C6: a create or update call whose agent list is empty, or contains an
element that is not a mapping or lacks the agent_id or active key, returns an
error envelope and writes nothing: the store is returned unchanged. -/
theorem C6_invalid_agent_list_no_write (db : DB) (c : Caller) (cid : Nat)
    (name description : String) (mr : Option Nat) (es : List AgentEntry)
    (hbad : es = [] ∨ ∃ e ∈ es, (e = AgentEntry.notDict ∨
      ∃ d, e = AgentEntry.dict d ∧
        (d.agent_id.isNone = true ∨ d.active.isNone = true))) :
    (∃ msg, create_chatroom db c name description mr es = (.error msg, db)) ∧
    (∃ msg, update_chatroom db c cid name description mr es = (.error msg, db)) := by
  have hbad2 : es = [] ∨ ∃ e ∈ es, (validAgentItem e).isSome = true := by
    rcases hbad with rfl | ⟨e, he, hcase⟩
    · exact Or.inl rfl
    · refine Or.inr ⟨e, he, ?_⟩
      rcases hcase with rfl | ⟨d, rfl, hmiss⟩
      · rfl
      · show (validAgentItem (AgentEntry.dict d)).isSome = true
        unfold validAgentItem
        dsimp only
        rw [if_pos hmiss]
        rfl
  exact ⟨create_chatroom_invalid db c name description mr es hbad2,
    update_chatroom_invalid db c cid name description mr es hbad2⟩

/-- C6 witness: a list with an entry missing the active key fails both calls
on dbW without a write. -/
theorem C6_witness :
    (∃ msg, create_chatroom dbW cW "nm" "d" (some 5)
      [AgentEntry.dict ⟨some 2, none⟩] = (.error msg, dbW)) ∧
    (∃ msg, update_chatroom dbW cW 1 "nm" "d" (some 5)
      [AgentEntry.dict ⟨some 2, none⟩] = (.error msg, dbW)) :=
  C6_invalid_agent_list_no_write dbW cW 1 "nm" "d" (some 5)
    [AgentEntry.dict ⟨some 2, none⟩]
    (Or.inr ⟨AgentEntry.dict ⟨some 2, none⟩, by decide,
      Or.inr ⟨⟨some 2, none⟩, rfl, by decide⟩⟩)

/-- C7: a delete call on an existing owned room succeeds, sets the room
status to 3, sets the linked application status to 3, hard-deletes every
membership row of the room, and leaves the message store unchanged. -/
theorem C7_delete_effects (db : DB) (c : Caller) (cid : Nat) (fc : Room)
    (h0 : cid ≠ 0) (hfind : search_chatrooms_id db cid c.uid = some fc) :
    (delete_chatroom db c cid).1 = .successData ∧
    (∀ r ∈ (delete_chatroom db c cid).2.rooms,
      r.id = cid → r.user_id = c.uid → r.status = 3) ∧
    (∀ a ∈ (delete_chatroom db c cid).2.apps,
      a.user_id = c.uid → a.id = fc.app_id → a.status = 3) ∧
    (∀ m ∈ (delete_chatroom db c cid).2.memberships, m.chatroom_id ≠ cid) ∧
    (delete_chatroom db c cid).2.messages = db.messages := by
  unfold delete_chatroom
  rw [if_neg h0, hfind]
  refine ⟨rfl, ?_, ?_, ?_, rfl⟩
  · intro r hr hid huser
    rw [List.mem_map] at hr
    obtain ⟨r0, hr0, rfl⟩ := hr
    by_cases h : r0.id = cid ∧ r0.user_id = c.uid
    · simp [h]
    · rw [if_neg h] at hid huser
      exact absurd ⟨hid, huser⟩ h
  · intro a ha huser hid
    rw [List.mem_map] at ha
    obtain ⟨a0, ha0, rfl⟩ := ha
    by_cases h : a0.user_id = c.uid ∧ a0.id = fc.app_id
    · simp [h]
    · rw [if_neg h] at huser hid
      exact absurd ⟨huser, hid⟩ h
  · intro m hm
    rw [List.mem_filter] at hm
    have := hm.2
    rw [Bool.not_eq_true', decide_eq_false_iff_not] at this
    exact this

/-- C7 witness: deleting room 1 of dbW. -/
theorem C7_witness :
    (delete_chatroom dbW cW 1).1 = Resp.successData ∧
    (∀ r ∈ (delete_chatroom dbW cW 1).2.rooms,
      r.id = 1 → r.user_id = cW.uid → r.status = 3) ∧
    (∀ a ∈ (delete_chatroom dbW cW 1).2.apps,
      a.user_id = cW.uid → a.id = (⟨1, 9, 7, 1, 10, Value.vInt 0, 1, 1⟩ : Room).app_id →
        a.status = 3) ∧
    (∀ m ∈ (delete_chatroom dbW cW 1).2.memberships, m.chatroom_id ≠ 1) ∧
    (delete_chatroom dbW cW 1).2.messages = dbW.messages :=
  C7_delete_effects dbW cW 1 ⟨1, 9, 7, 1, 10, Value.vInt 0, 1, 1⟩ (by decide) (by decide)

/-- C8: on a room that is absent or not visible to the caller, details alone
answers with a success envelope carrying the does-not-exist detail and the
sentinel code 1, while update, delete, set_smart_selection, set_agent_active
and history all answer with an error envelope for the very same condition. -/
theorem C8_details_soft_fails_others_hard (db : DB) (c : Caller) (cid : Nat)
    (name description : String) (mr : Option Nat) (es : List AgentEntry)
    (aid page psz : Nat) (v v2 : Value)
    (h0 : cid ≠ 0) (hnone : search_chatrooms_id db cid c.uid = none) :
    show_chatroom_details db c cid = (.successDetail "chatroom_does_not_exist" 1, db) ∧
    update_chatroom db c cid name description mr es = (.error "chatroom_does_not_exist", db) ∧
    delete_chatroom db c cid = (.error "chatroom_does_not_exist", db) ∧
    toggle_smart_selection_switch db c cid v = (.error "chatroom_does_not_exist", db) ∧
    toggle_auto_answer_switch db c cid aid v2 = (.error "chatroom_does_not_exist", db) ∧
    chatroom_message db c cid page psz = (.error "chatroom_does_not_exist", db) := by
  refine ⟨?_, ?_, ?_, ?_, ?_, ?_⟩
  · unfold show_chatroom_details
    rw [hnone]
  · unfold update_chatroom
    rw [hnone]
  · unfold delete_chatroom
    rw [if_neg h0, hnone]
  · unfold toggle_smart_selection_switch
    rw [if_neg h0, hnone]
  · unfold toggle_auto_answer_switch
    rw [if_neg h0, hnone]
  · unfold chatroom_message
    rw [hnone]

/-- C8 witness: room 5 does not exist in dbW. -/
theorem C8_witness :
    show_chatroom_details dbW cW 5 = (.successDetail "chatroom_does_not_exist" 1, dbW) ∧
    update_chatroom dbW cW 5 "nm" "d" (some 5) [AgentEntry.dict ⟨some 1, some (Value.vInt 1)⟩] =
      (.error "chatroom_does_not_exist", dbW) ∧
    delete_chatroom dbW cW 5 = (.error "chatroom_does_not_exist", dbW) ∧
    toggle_smart_selection_switch dbW cW 5 (Value.vInt 1) =
      (.error "chatroom_does_not_exist", dbW) ∧
    toggle_auto_answer_switch dbW cW 5 1 (Value.vInt 0) =
      (.error "chatroom_does_not_exist", dbW) ∧
    chatroom_message dbW cW 5 1 10 = (.error "chatroom_does_not_exist", dbW) :=
  C8_details_soft_fails_others_hard dbW cW 5 "nm" "d" (some 5)
    [AgentEntry.dict ⟨some 1, some (Value.vInt 1)⟩] 1 1 10 (Value.vInt 1) (Value.vInt 0)
    (by decide) (by decide)

/-- C9: create and update validation never range-checks the active value of
an agent entry: any value (such as the integer 5 or a string) is accepted and
written to the membership store, whereas set_agent_active rejects every
active value outside 0 and 1 with an error and no write. -/
theorem C9_active_value_not_range_checked (db : DB) (c : Caller) (cid : Nat)
    (name description : String) (mr : Option Nat) (es : List AgentEntry)
    (aid : Nat) (v : Value) (fc : Room) (e : AgentEntry)
    (hname : name ≠ "") (hmr : mr.isSome = true) (hne : es ≠ [])
    (hval : validateAgentList es = none)
    (he : e ∈ es)
    (hall : ∀ e2 ∈ es, e2.agentId = e.agentId → e2.activeVal = v)
    (hfresh : ∀ m ∈ db.memberships, m.chatroom_id ≠ db.next_room_id)
    (hfind : search_chatrooms_id db cid c.uid = some fc)
    (h0 : cid ≠ 0) (h1 : aid ≠ 0) (h2 : aid ∈ db.agents)
    (hv0 : v ≠ Value.vInt 0) (hv1 : v ≠ Value.vInt 1) :
    ((create_chatroom db c name description mr es).1 = .successData ∧
      ∃ m ∈ (create_chatroom db c name description mr es).2.memberships,
        m.chatroom_id = db.next_room_id ∧ m.agent_id = e.agentId ∧ m.active = v) ∧
    ((update_chatroom db c cid name description mr es).1 = .successData ∧
      ∃ m ∈ (update_chatroom db c cid name description mr es).2.memberships,
        m.chatroom_id = cid ∧ m.agent_id = e.agentId ∧ m.active = v) ∧
    (∃ msg, toggle_auto_answer_switch db c cid aid v = (.error msg, db)) := by
  have hmem : e.agentId ∈ newAgentIds es := (mem_newAgentIds es _).mpr ⟨e, he, rfl⟩
  refine ⟨?_, ?_, toggle_auto_rejects_nonbool db c cid aid v h0 fc hfind h1 h2 hv0 hv1⟩
  · rw [create_chatroom_success db c name description mr es hname hmr hne hval]
    refine ⟨rfl, ?_⟩
    have hex := (exists_key_insert_agent db.next_room_id db.next_room_id e.agentId
      es db.memberships).mpr (Or.inr ⟨rfl, hmem⟩)
    obtain ⟨m, hm, hc, ha⟩ := hex
    refine ⟨m, hm, hc, ha, ?_⟩
    have hval2 := active_insert_agent_mem db.next_room_id e.agentId es db.memberships
      v hmem m hm hc ha
    rw [hval2]
    exact lastActive_all e.agentId v es v hall hmem
  · rw [update_chatroom_success db c cid name description mr es fc hfind hname hmr hne hval]
    refine ⟨rfl, ?_⟩
    obtain ⟨m, hm, hc, ha⟩ := (exists_key_reconcile db.memberships cid es e.agentId).mpr hmem
    refine ⟨m, hm, hc, ha, ?_⟩
    have hval2 := active_reconcile db.memberships cid es e.agentId hmem v m hm hc ha
    rw [hval2]
    exact lastActive_all e.agentId v es v hall hmem

/-- C9 witness: the out-of-range active value 5 for agent 3 is accepted and
stored by create and update on dbW, and rejected by set_agent_active. -/
theorem C9_witness :
    ((create_chatroom dbW cW "nm" "d" (some 5)
        [AgentEntry.dict ⟨some 3, some (Value.vInt 5)⟩]).1 = Resp.successData ∧
      ∃ m ∈ (create_chatroom dbW cW "nm" "d" (some 5)
          [AgentEntry.dict ⟨some 3, some (Value.vInt 5)⟩]).2.memberships,
        m.chatroom_id = dbW.next_room_id ∧
        m.agent_id = (AgentEntry.dict ⟨some 3, some (Value.vInt 5)⟩).agentId ∧
        m.active = Value.vInt 5) ∧
    ((update_chatroom dbW cW 1 "nm" "d" (some 5)
        [AgentEntry.dict ⟨some 3, some (Value.vInt 5)⟩]).1 = Resp.successData ∧
      ∃ m ∈ (update_chatroom dbW cW 1 "nm" "d" (some 5)
          [AgentEntry.dict ⟨some 3, some (Value.vInt 5)⟩]).2.memberships,
        m.chatroom_id = 1 ∧
        m.agent_id = (AgentEntry.dict ⟨some 3, some (Value.vInt 5)⟩).agentId ∧
        m.active = Value.vInt 5) ∧
    (∃ msg, toggle_auto_answer_switch dbW cW 1 2 (Value.vInt 5) = (.error msg, dbW)) :=
  C9_active_value_not_range_checked dbW cW 1 "nm" "d" (some 5)
    [AgentEntry.dict ⟨some 3, some (Value.vInt 5)⟩] 2 (Value.vInt 5)
    ⟨1, 9, 7, 1, 10, Value.vInt 0, 1, 1⟩ (AgentEntry.dict ⟨some 3, some (Value.vInt 5)⟩)
    (by decide) (by decide) (by decide) (by decide) (by decide) (by decide) (by decide)
    (by decide) (by decide) (by decide) (by decide) (by decide) (by decide)

/-- C10: the last-active-agent guard never consults the target membership:
a deactivation on a room with at most one active membership is rejected with
the at-least-one-agent error even when the target membership is itself
already inactive, so the write would not have lowered the active count. -/
theorem C10_guard_ignores_target_state (db : DB) (c : Caller) (cid aid : Nat) (fc : Room)
    (h0 : cid ≠ 0) (hs : search_chatrooms_id db cid c.uid = some fc)
    (h1 : aid ≠ 0) (h2 : aid ∈ db.agents)
    (hrel : (db.memberships.any fun m =>
      decide (m.chatroom_id = cid ∧ m.agent_id = aid)) = true)
    (htarget : ∀ m ∈ db.memberships, m.chatroom_id = cid → m.agent_id = aid →
      m.active ≠ Value.vInt 1)
    (hlen : (get_active_agents_by_chatroom_id db.memberships cid).length ≤ 1) :
    toggle_auto_answer_switch db c cid aid (Value.vInt 0) =
      (.error "chatroom_agent_number_less_than_one", db) :=
  toggle_auto_guard db c cid aid h0 fc hs h1 h2 hrel hlen

/-- C10 witness: in dbW agent 2 of room 1 is already inactive and only one
membership is active, yet deactivating agent 2 is still rejected. -/
theorem C10_witness :
    toggle_auto_answer_switch dbW cW 1 2 (Value.vInt 0) =
      (.error "chatroom_agent_number_less_than_one", dbW) :=
  C10_guard_ignores_target_state dbW cW 1 2 ⟨1, 9, 7, 1, 10, Value.vInt 0, 1, 1⟩
    (by decide) (by decide) (by decide) (by decide) (by decide) (by decide) (by decide)

end NexusAI
